import Mathlib

/-!
Shallow embedding of the coffee-shop order API (src/models.py, src/main.py).

Python floats carry exact decimal constants here (3.50, 0.75, ...); every
reachable arithmetic result is an exact multiple of 0.01 and far from any
rounding boundary, so the embedding uses exact rationals (ℚ) for money and
for the prep-time accumulator.  `datetime` instants are modelled as integers
(minutes), so `timedelta(minutes = m)` becomes integer addition.  The
in-memory `orders_db` dict is modelled as an association list whose
observable operations (key lookup, overwrite-insert, key deletion,
per-key update) agree with Python dict semantics.
-/

namespace CoffeeShop

/-- `class SizeEnum(str, Enum)` in src/models.py. -/
inductive SizeEnum where
  | small
  | medium
  | large
deriving DecidableEq, Repr

/-- `class CoffeeTypeEnum(str, Enum)` in src/models.py. -/
inductive CoffeeTypeEnum where
  | iced
  | hot
deriving DecidableEq, Repr

/-- `class FlavorEnum(str, Enum)` in src/models.py. -/
inductive FlavorEnum where
  | french_vanilla
  | hazelnut
  | caramel
  | mocha
  | vanilla
  | cinnamon
deriving DecidableEq, Repr

/-- `class MilkTypeEnum(str, Enum)` in src/models.py. -/
inductive MilkTypeEnum where
  | whole
  | oat
  | almond
  | soy
  | none
deriving DecidableEq, Repr

/-- `status` literal type of `CoffeeOrderResponse` / `OrderStatus`. -/
inductive Status where
  | received
  | preparing
  | ready
  | completed
deriving DecidableEq, Repr

/-- `class CoffeeOrder(BaseModel)` in src/models.py — a validated request. -/
structure CoffeeOrder where
  size : SizeEnum
  coffee_type : CoffeeTypeEnum
  flavors : List FlavorEnum
  milk : Option MilkTypeEnum
  extra_shot : Option Int
  special_instructions : Option String
deriving DecidableEq, Repr

/-- The constraints pydantic enforces on `CoffeeOrder` (Field bounds plus the
two validators): extra shots in [0,5] if present, at most 3 flavors, special
instructions at most 200 characters if present. -/
def CoffeeOrder.Valid (o : CoffeeOrder) : Prop :=
  (∀ n ∈ o.extra_shot, 0 ≤ n ∧ n ≤ 5) ∧
  o.flavors.length ≤ 3 ∧
  (∀ s ∈ o.special_instructions, s.length ≤ 200)

instance optionBAllDecidable {α : Type _} (p : α → Prop) [DecidablePred p]
    (o : Option α) : Decidable (∀ a ∈ o, p a) :=
  match o with
  | Option.none => isTrue (by simp)
  | some a => decidable_of_iff (p a) (by simp)

instance (o : CoffeeOrder) : Decidable o.Valid := by
  unfold CoffeeOrder.Valid; infer_instance

/-- `PRICING["base_prices"]` in src/main.py. -/
def base_prices : SizeEnum → ℚ
  | SizeEnum.small => 3.50
  | SizeEnum.medium => 4.25
  | SizeEnum.large => 4.95

/-- `PRICING["extra_shot"]` in src/main.py. -/
def PRICING_extra_shot : ℚ := 0.75

/-- `PRICING["flavor"]` in src/main.py. -/
def PRICING_flavor : ℚ := 0.50

/-- `PRICING["premium_milk"]` in src/main.py. -/
def PRICING_premium_milk : ℚ := 0.65

/-- Python's `round(x, 2)`.  Modelled as round-half-up on exact rationals;
every value this program rounds is an exact multiple of 0.01 (see
`round2_eq_self`), where any tie policy is the identity, matching the float
behaviour. -/
def round2 (q : ℚ) : ℚ := (⌊q * 100 + 1 / 2⌋ : ℚ) / 100

/-- Python `int(x)` for the accumulator: truncation toward zero. -/
def truncTowardZero (q : ℚ) : ℤ := if q < 0 then ⌈q⌉ else ⌊q⌋

/-- `calculate_price` in src/main.py.  `if order.extra_shot:` is Python
truthiness: `None` and `0` are both falsy, hence the `n ≠ 0` test; `if
order.milk and order.milk in [...]` is falsy for `None` and otherwise a
membership test (enum values are non-empty strings, always truthy). -/
def calculate_price (o : CoffeeOrder) : ℚ :=
  let p1 := base_prices o.size
  let p2 := match o.extra_shot with
    | some n => if n ≠ 0 then p1 + (n : ℚ) * PRICING_extra_shot else p1
    | Option.none => p1
  let p3 := p2 + (o.flavors.length : ℚ) * PRICING_flavor
  let p4 := match o.milk with
    | some m =>
        if m ∈ [MilkTypeEnum.oat, MilkTypeEnum.almond, MilkTypeEnum.soy]
        then p3 + PRICING_premium_milk else p3
    | Option.none => p3
  round2 p4

/-- `calculate_prep_time` in src/main.py.  The accumulator starts as the
integer 3 and becomes a float only if `extra_shot` is truthy; modelling it
in ℚ throughout is value-identical.  `int(base_time)` truncates toward
zero and `max(2, ...)` clamps. -/
def calculate_prep_time (o : CoffeeOrder) : ℤ :=
  let t1 : ℚ := 3
  let t2 := if o.coffee_type = CoffeeTypeEnum.iced then t1 + 1 else t1
  let t3 := match o.extra_shot with
    | some n => if n ≠ 0 then t2 + (n : ℚ) * 0.5 else t2
    | Option.none => t2
  let t4 := if o.flavors.length > 1 then t3 + 1 else t3
  max 2 (truncTowardZero t4)

/-- `class CoffeeOrderResponse(BaseModel)` in src/models.py — the stored
order record.  `order_time` is a `datetime`, modelled as an integer number
of minutes; `estimated_price` is a float, modelled exactly in ℚ. -/
structure CoffeeOrderResponse where
  order_id : String
  size : SizeEnum
  coffee_type : CoffeeTypeEnum
  flavors : List FlavorEnum
  milk : Option MilkTypeEnum
  extra_shot : Option Int
  special_instructions : Option String
  estimated_price : ℚ
  estimated_prep_time : ℤ
  order_time : ℤ
  status : Status
deriving DecidableEq, Repr

/-- `class OrderStatus(BaseModel)` in src/models.py. -/
structure OrderStatus where
  order_id : String
  status : Status
  estimated_ready_time : Option ℤ
deriving DecidableEq, Repr

/-- `HTTPException(status_code=..., detail=...)` raised by the handlers. -/
structure HTTPException where
  status_code : Nat
  detail : String
deriving DecidableEq, Repr

/-- The 404 error every handler raises when `order_id not in orders_db`:
`HTTPException(404, detail=f"Order ... not found")`. -/
def notFoundError (order_id : String) : HTTPException :=
  ⟨404, "Order " ++ order_id ++ " not found"⟩

/-- The 400 error `cancel_order` raises on a ready/completed order — the
spec's Conflict signal. -/
def cancelConflictError : HTTPException :=
  ⟨400, "Cannot cancel order that is ready or completed"⟩

/-- `orders_db: Dict[str, CoffeeOrderResponse]` in src/main.py, modelled
as an association list (most recent insertion first). -/
abbrev OrdersDB := List (String × CoffeeOrderResponse)

/-- Dict key lookup: `orders_db[order_id]` / `order_id in orders_db`. -/
def OrdersDB.find : OrdersDB → String → Option CoffeeOrderResponse
  | [], _ => Option.none
  | (k, v) :: rest, order_id =>
      if k = order_id then some v else OrdersDB.find rest order_id

/-- `get_order` in src/main.py (GET /orders/X): 404 if absent, else the
stored record. -/
def get_order (db : OrdersDB) (order_id : String) :
    Except HTTPException CoffeeOrderResponse :=
  match db.find order_id with
  | Option.none => Except.error (notFoundError order_id)
  | some o => Except.ok o

/-- `create_coffee_order` in src/main.py (POST /orders): price and
prep-time are computed, a response record with status "received" is built
and stored under the fresh identifier.  The generated `uuid.uuid4()` and
`datetime.now()` enter as the parameters `order_id` and `now`. -/
def create_coffee_order (db : OrdersDB) (order : CoffeeOrder)
    (order_id : String) (now : ℤ) : CoffeeOrderResponse × OrdersDB :=
  let resp : CoffeeOrderResponse :=
    { order_id := order_id
      size := order.size
      coffee_type := order.coffee_type
      flavors := order.flavors
      milk := order.milk
      extra_shot := order.extra_shot
      special_instructions := order.special_instructions
      estimated_price := calculate_price order
      estimated_prep_time := calculate_prep_time order
      order_time := now
      status := Status.received }
  (resp, (order_id, resp) :: db)

/-- `update_order_status` in src/main.py (PATCH /orders/X/status): 404 if
absent; otherwise the stored record's status is overwritten in place and an
`OrderStatus` is returned whose ready time is `now + prep_time` minutes
exactly when the new status is "preparing".  The pair's second component is
the store after the call (unchanged when the handler raises). -/
def update_order_status (db : OrdersDB) (order_id : String)
    (new_status : Status) (now : ℤ) :
    Except HTTPException OrderStatus × OrdersDB :=
  match db.find order_id with
  | Option.none => (Except.error (notFoundError order_id), db)
  | some order =>
      let db' := db.map fun kv =>
        if kv.1 = order_id then (kv.1, { kv.2 with status := new_status })
        else kv
      let ready : Option ℤ :=
        if new_status = Status.preparing
        then some (now + order.estimated_prep_time)
        else Option.none
      (Except.ok ⟨order_id, new_status, ready⟩, db')

/-- `cancel_order` in src/main.py (DELETE /orders/X): 404 if absent; 400
(Conflict) if the stored status is "ready" or "completed", leaving the
store untouched; otherwise `del orders_db[order_id]`. -/
def cancel_order (db : OrdersDB) (order_id : String) :
    Except HTTPException String × OrdersDB :=
  match db.find order_id with
  | Option.none => (Except.error (notFoundError order_id), db)
  | some order =>
      if order.status ∈ [Status.ready, Status.completed] then
        (Except.error cancelConflictError, db)
      else
        (Except.ok ("Order " ++ order_id ++ " has been cancelled"),
         db.filter fun kv => kv.1 ≠ order_id)

/-- An order request before pydantic validation: enum fields are still the
raw strings of the JSON body.  `extra_shot` is already an integer and
`special_instructions` a string, the types the claims range over. -/
structure RawCoffeeOrder where
  size : String
  coffee_type : String
  flavors : List String
  milk : Option String
  extra_shot : Option Int
  special_instructions : Option String
deriving DecidableEq, Repr

/-- Pydantic coercion of a string into `SizeEnum` (the `str, Enum` values
in src/models.py). -/
def SizeEnum.ofString (s : String) : Option SizeEnum :=
  if s = "small" then some SizeEnum.small
  else if s = "medium" then some SizeEnum.medium
  else if s = "large" then some SizeEnum.large
  else Option.none

/-- Pydantic coercion of a string into `CoffeeTypeEnum`. -/
def CoffeeTypeEnum.ofString (s : String) : Option CoffeeTypeEnum :=
  if s = "iced" then some CoffeeTypeEnum.iced
  else if s = "hot" then some CoffeeTypeEnum.hot
  else Option.none

/-- Pydantic coercion of a string into `FlavorEnum`. -/
def FlavorEnum.ofString (s : String) : Option FlavorEnum :=
  if s = "french vanilla" then some FlavorEnum.french_vanilla
  else if s = "hazelnut" then some FlavorEnum.hazelnut
  else if s = "caramel" then some FlavorEnum.caramel
  else if s = "mocha" then some FlavorEnum.mocha
  else if s = "vanilla" then some FlavorEnum.vanilla
  else if s = "cinnamon" then some FlavorEnum.cinnamon
  else Option.none

/-- Pydantic coercion of a string into `MilkTypeEnum`. -/
def MilkTypeEnum.ofString (s : String) : Option MilkTypeEnum :=
  if s = "whole" then some MilkTypeEnum.whole
  else if s = "oat" then some MilkTypeEnum.oat
  else if s = "almond" then some MilkTypeEnum.almond
  else if s = "soy" then some MilkTypeEnum.soy
  else if s = "none" then some MilkTypeEnum.none
  else Option.none

/-- A pydantic `ValidationError` entry: offending field and message. -/
structure ValidationError where
  loc : String
  msg : String
deriving DecidableEq, Repr

/-- Element-wise coercion of the `flavors` list. -/
def parseFlavors : List String → Except ValidationError (List FlavorEnum)
  | [] => Except.ok []
  | f :: rest =>
      match FlavorEnum.ofString f with
      | Option.none =>
          Except.error ⟨"flavors", "value is not a valid enumeration member"⟩
      | some fe =>
          match parseFlavors rest with
          | Except.error e => Except.error e
          | Except.ok fl => Except.ok (fe :: fl)

/-- Coercion of the optional `milk` field. -/
def parseMilk : Option String → Except ValidationError (Option MilkTypeEnum)
  | Option.none => Except.ok Option.none
  | some m =>
      match MilkTypeEnum.ofString m with
      | Option.none =>
          Except.error ⟨"milk", "value is not a valid enumeration member"⟩
      | some mk => Except.ok (some mk)

/-- `Field(None, ge=0, le=5)` plus the `validate_extra_shot` validator in
src/models.py (the validator repeats the Field bounds). -/
def checkExtraShot : Option Int → Except ValidationError Unit
  | Option.none => Except.ok ()
  | some n =>
      if n < 0 then Except.error ⟨"extra_shot", "Extra shots cannot be negative"⟩
      else if n > 5 then Except.error ⟨"extra_shot", "Maximum 5 extra shots allowed"⟩
      else Except.ok ()

/-- `Field(None, max_length=200)` on `special_instructions`. -/
def checkInstructions : Option String → Except ValidationError Unit
  | Option.none => Except.ok ()
  | some s =>
      if s.length > 200 then
        Except.error ⟨"special_instructions", "ensure this value has at most 200 characters"⟩
      else Except.ok ()

/-- Pydantic validation of a `CoffeeOrder` body (src/models.py): each field
is coerced into its enum, then the Field bounds and the two `@validator`
checks run.  FastAPI turns any failure into a 422 ValidationError before
the handler body is entered. -/
def parse_coffee_order (r : RawCoffeeOrder) :
    Except ValidationError CoffeeOrder :=
  match SizeEnum.ofString r.size with
  | Option.none => Except.error ⟨"size", "value is not a valid enumeration member"⟩
  | some sz =>
  match CoffeeTypeEnum.ofString r.coffee_type with
  | Option.none => Except.error ⟨"coffee_type", "value is not a valid enumeration member"⟩
  | some ct =>
  match parseFlavors r.flavors with
  | Except.error e => Except.error e
  | Except.ok fl =>
  if fl.length > 3 then
    Except.error ⟨"flavors", "Maximum 3 flavors allowed per coffee"⟩
  else
  match parseMilk r.milk with
  | Except.error e => Except.error e
  | Except.ok mk =>
  match checkExtraShot r.extra_shot with
  | Except.error e => Except.error e
  | Except.ok _ =>
  match checkInstructions r.special_instructions with
  | Except.error e => Except.error e
  | Except.ok _ =>
      Except.ok ⟨sz, ct, fl, mk, r.extra_shot, r.special_instructions⟩

/-- The well-formedness conditions of spec §4.1, stated directly on the raw
request: every enum string in its fixed value set, at most 3 flavors, extra
shots in [0,5] if present, instructions at most 200 characters if present. -/
def RawCoffeeOrder.WellFormed (r : RawCoffeeOrder) : Prop :=
  r.size ∈ ["small", "medium", "large"] ∧
  r.coffee_type ∈ ["iced", "hot"] ∧
  (∀ f ∈ r.flavors,
    f ∈ ["french vanilla", "hazelnut", "caramel", "mocha", "vanilla", "cinnamon"]) ∧
  r.flavors.length ≤ 3 ∧
  (∀ m ∈ r.milk, m ∈ ["whole", "oat", "almond", "soy", "none"]) ∧
  (∀ n ∈ r.extra_shot, 0 ≤ n ∧ n ≤ 5) ∧
  (∀ s ∈ r.special_instructions, s.length ≤ 200)

instance (r : RawCoffeeOrder) : Decidable r.WellFormed := by
  unfold RawCoffeeOrder.WellFormed; infer_instance

/-! ### Spec-side definitions (written from the spec's words, for
refinement comparison with the embedded code) and proof helpers. -/

/-- Spec §4.2 step 4 / glossary: milk types carrying the flat surcharge. -/
def isPremiumMilk : Option MilkTypeEnum → Bool
  | some MilkTypeEnum.oat => true
  | some MilkTypeEnum.almond => true
  | some MilkTypeEnum.soy => true
  | _ => false

/-- The pricing formula exactly as spec §4.2 words it: size base, plus 0.75
per extra shot when present, plus 0.50 per flavor instance, plus a flat
0.65 for premium milk, rounded to 2 decimal places. -/
def price_spec (o : CoffeeOrder) : ℚ :=
  round2 (base_prices o.size
    + (match o.extra_shot with
       | some n => (n : ℚ) * 0.75
       | Option.none => 0)
    + (o.flavors.length : ℚ) * 0.50
    + (if isPremiumMilk o.milk then 0.65 else 0))

/-- The prep-time accumulator exactly as spec §4.3 words it: start 3.0,
+1.0 if iced, +0.5 per extra shot when present, +1.0 if more than one
flavor. -/
def prep_accumulator_spec (o : CoffeeOrder) : ℚ :=
  3 + (if o.coffee_type = CoffeeTypeEnum.iced then 1 else 0)
    + (match o.extra_shot with
       | some n => (n : ℚ) * 0.5
       | Option.none => 0)
    + (if o.flavors.length > 1 then 1 else 0)

/-- The value `calculate_price` feeds into `round(_, 2)` (the let-chain of
the source function, spelled out so `calculate_price o = round2
(pre_round_price o)` holds by definition). -/
def pre_round_price (o : CoffeeOrder) : ℚ :=
  let p1 := base_prices o.size
  let p2 := match o.extra_shot with
    | some n => if n ≠ 0 then p1 + (n : ℚ) * PRICING_extra_shot else p1
    | Option.none => p1
  let p3 := p2 + (o.flavors.length : ℚ) * PRICING_flavor
  match o.milk with
  | some m =>
      if m ∈ [MilkTypeEnum.oat, MilkTypeEnum.almond, MilkTypeEnum.soy]
      then p3 + PRICING_premium_milk else p3
  | Option.none => p3

/-- Base prices in integer cents. -/
def base_cents : SizeEnum → ℤ
  | SizeEnum.small => 350
  | SizeEnum.medium => 425
  | SizeEnum.large => 495

/-- The full price in integer cents. -/
def price_cents (o : CoffeeOrder) : ℤ :=
  base_cents o.size
    + (match o.extra_shot with
       | some n => n * 75
       | Option.none => 0)
    + (o.flavors.length : ℤ) * 50
    + (if isPremiumMilk o.milk then 65 else 0)

/-! ### Concrete inputs used by the witness theorems. -/

/-- Spec §8 scenario 3: large, hot, two flavors, oat milk, two extra
shots. -/
def order_c1 : CoffeeOrder :=
  ⟨SizeEnum.large, CoffeeTypeEnum.hot, [FlavorEnum.hazelnut, FlavorEnum.caramel],
   some MilkTypeEnum.oat, some 2, Option.none⟩

/-- A plain small hot order. -/
def order_small : CoffeeOrder :=
  ⟨SizeEnum.small, CoffeeTypeEnum.hot, [], Option.none, Option.none, Option.none⟩

/-- `order_small` with the temperature flipped to iced. -/
def order_small_iced : CoffeeOrder :=
  ⟨SizeEnum.small, CoffeeTypeEnum.iced, [], Option.none, Option.none, Option.none⟩

/-- A stored record in status `received`. -/
def resp_received : CoffeeOrderResponse :=
  ⟨"id1", SizeEnum.small, CoffeeTypeEnum.hot, [], Option.none, Option.none,
   Option.none, 3.50, 3, 0, Status.received⟩

/-- A stored record in status `ready`. -/
def resp_ready : CoffeeOrderResponse :=
  ⟨"id2", SizeEnum.medium, CoffeeTypeEnum.iced, [], Option.none, Option.none,
   Option.none, 4.25, 4, 0, Status.ready⟩

/-- A two-entry store amenable to concrete evaluation. -/
def db_ex : OrdersDB := [("id1", resp_received), ("id2", resp_ready)]

/-- A well-formed raw request. -/
def raw_ok : RawCoffeeOrder :=
  ⟨"large", "hot", ["hazelnut", "caramel"], some "oat", some 2, Option.none⟩

/-! ### Helper lemmas. -/

/-- Python's truthiness guard around the extra-shot term is value-neutral:
skipping the addition when the count is 0 adds 0. -/
theorem shot_ite (p c : ℚ) (n : ℤ) :
    (if n ≠ 0 then p + (n : ℚ) * c else p) = p + (n : ℚ) * c := by
  split_ifs with h
  · rfl
  · push_neg at h; subst h; simp

/-- `calculate_price` is `round2` of its pre-rounding accumulator. -/
theorem calculate_price_eq_round2 (o : CoffeeOrder) :
    calculate_price o = round2 (pre_round_price o) := rfl

/-- The pre-rounding price is exactly `price_cents` hundredths. -/
theorem pre_round_price_eq_cents (o : CoffeeOrder) :
    pre_round_price o = (price_cents o : ℚ) / 100 := by
  rcases o with ⟨sz, ct, fl, mk, es, si⟩
  rcases es with _ | n <;> rcases mk with _ | m <;> cases sz <;> try cases m
  all_goals
    simp only [pre_round_price, price_cents, PRICING_extra_shot,
      PRICING_flavor, PRICING_premium_milk, isPremiumMilk, base_prices,
      base_cents, shot_ite, List.mem_cons, List.mem_singleton,
      List.not_mem_nil, or_false, reduceIte]
  all_goals try simp +decide only []
  all_goals push_cast
  all_goals ring

/-- `round2` is the identity on exact multiples of 0.01. -/
theorem round2_eq_self (q : ℚ) (k : ℤ) (hk : q * 100 = (k : ℚ)) :
    round2 q = q := by
  unfold round2
  rw [hk]
  have h1 : ⌊(k : ℚ) + 1 / 2⌋ = k := by
    rw [Int.floor_int_add]
    norm_num
  rw [h1]
  have : q = (k : ℚ) / 100 := by linarith
  rw [this]

/-- `calculate_price` returns exactly `price_cents` hundredths: the float
rounding in the source recovers the exact decimal value. -/
theorem calculate_price_eq_cents (o : CoffeeOrder) :
    calculate_price o = (price_cents o : ℚ) / 100 := by
  rw [calculate_price_eq_round2, ← pre_round_price_eq_cents]
  exact round2_eq_self _ (price_cents o) (by rw [pre_round_price_eq_cents]; ring)

/-- The spec §4.2 formula also returns exactly `price_cents` hundredths. -/
theorem price_spec_eq_cents (o : CoffeeOrder) :
    price_spec o = (price_cents o : ℚ) / 100 := by
  have h : price_spec o = round2 ((price_cents o : ℚ) / 100) := by
    unfold price_spec
    congr 1
    rcases o with ⟨sz, ct, fl, mk, es, si⟩
    rcases es with _ | n <;> rcases mk with _ | m <;> cases sz <;> try cases m
    all_goals
      simp only [price_cents, isPremiumMilk, base_prices, base_cents, reduceIte]
    all_goals push_cast
    all_goals ring
  rw [h]
  exact round2_eq_self _ (price_cents o) (by ring)

/-- The source prep-time computation equals the spec §4.3 accumulator
followed by truncation and the clamp. -/
theorem calculate_prep_time_eq_spec (o : CoffeeOrder) :
    calculate_prep_time o = max 2 (truncTowardZero (prep_accumulator_spec o)) := by
  rcases o with ⟨sz, ct, fl, mk, es, si⟩
  rcases es with _ | n <;>
    simp only [calculate_prep_time, prep_accumulator_spec, shot_ite] <;>
    split_ifs <;>
    exact congrArg (fun x => max 2 (truncTowardZero x)) (by ring)

/-- Truncation toward zero agrees with floor on non-negative values. -/
theorem truncTowardZero_eq_floor (q : ℚ) (h : 0 ≤ q) :
    truncTowardZero q = ⌊q⌋ := by
  unfold truncTowardZero
  rw [if_neg (not_lt.mpr h)]

/-- With a non-negative shot count every contribution is non-negative, so
the accumulator never drops below its starting value 3. -/
theorem prep_accumulator_spec_ge (o : CoffeeOrder)
    (h0 : ∀ n ∈ o.extra_shot, 0 ≤ n) : 3 ≤ prep_accumulator_spec o := by
  unfold prep_accumulator_spec
  have h1 : (0 : ℚ) ≤ if o.coffee_type = CoffeeTypeEnum.iced then 1 else 0 := by
    split_ifs <;> norm_num
  have h2 : (0 : ℚ) ≤ match o.extra_shot with
      | some n => (n : ℚ) * 0.5
      | Option.none => 0 := by
    rcases he : o.extra_shot with _ | n
    · norm_num
    · have hn : (0 : ℤ) ≤ n := h0 n (by rw [he]; rfl)
      have : (0 : ℚ) ≤ (n : ℚ) := by exact_mod_cast hn
      nlinarith
  have h3 : (0 : ℚ) ≤ if o.flavors.length > 1 then 1 else 0 := by
    split_ifs <;> norm_num
  rcases he : o.extra_shot with _ | n <;> rw [he] at h2 <;> linarith

/-- The truncated accumulator is at least 3 for non-negative shot counts. -/
theorem prep_floor_ge (o : CoffeeOrder) (h0 : ∀ n ∈ o.extra_shot, 0 ≤ n) :
    3 ≤ truncTowardZero (prep_accumulator_spec o) := by
  have hacc := prep_accumulator_spec_ge o h0
  rw [truncTowardZero_eq_floor _ (by linarith)]
  exact Int.le_floor.mpr (by exact_mod_cast hacc)

/-- Unfolding lookup over a cons cell. -/
theorem find_cons (kv : String × CoffeeOrderResponse) (rest : OrdersDB)
    (j : String) :
    OrdersDB.find (kv :: rest) j
      = if kv.1 = j then some kv.2 else OrdersDB.find rest j := rfl

/-- Deleting a key removes it from lookup. -/
theorem find_filter_ne (db : OrdersDB) (order_id : String) :
    OrdersDB.find (db.filter fun kv => kv.1 ≠ order_id) order_id = Option.none := by
  induction db with
  | nil => rfl
  | cons kv rest ih =>
      rw [List.filter_cons]
      by_cases h : kv.1 = order_id
      · have hcond : decide (kv.1 ≠ order_id) = false := by simp [h]
        rw [hcond, if_neg Bool.false_ne_true]
        exact ih
      · have hcond : decide (kv.1 ≠ order_id) = true := by simp [h]
        rw [hcond, if_pos rfl, find_cons, if_neg h]
        exact ih

/-- Deleting one key leaves every other key's lookup unchanged. -/
theorem find_filter_other (db : OrdersDB) (order_id j : String)
    (hj : j ≠ order_id) :
    OrdersDB.find (db.filter fun kv => kv.1 ≠ order_id) j
      = OrdersDB.find db j := by
  induction db with
  | nil => rfl
  | cons kv rest ih =>
      rw [List.filter_cons]
      by_cases h : kv.1 = order_id
      · have hne : kv.1 ≠ j := by rw [h]; exact fun e => hj e.symm
        have hcond : decide (kv.1 ≠ order_id) = false := by simp [h]
        rw [hcond, if_neg Bool.false_ne_true, ih, find_cons, if_neg hne]
      · have hcond : decide (kv.1 ≠ order_id) = true := by simp [h]
        rw [hcond, if_pos rfl, find_cons, find_cons]
        by_cases h2 : kv.1 = j
        · rw [if_pos h2, if_pos h2]
        · rw [if_neg h2, if_neg h2]
          exact ih

/-- The in-place status overwrite, seen through lookup at the updated key. -/
theorem find_map_setStatus (db : OrdersDB) (order_id : String) (s : Status) :
    OrdersDB.find
      (db.map fun kv =>
        if kv.1 = order_id then (kv.1, { kv.2 with status := s }) else kv)
      order_id
      = Option.map (fun o => { o with status := s })
          (OrdersDB.find db order_id) := by
  induction db with
  | nil => rfl
  | cons kv rest ih =>
      rw [List.map_cons]
      by_cases h : kv.1 = order_id
      · rw [if_pos h, find_cons, if_pos h, find_cons, if_pos h,
          Option.map_some']
      · rw [if_neg h, find_cons, if_neg h, find_cons, if_neg h]
        exact ih

/-- The in-place status overwrite leaves every other key's lookup
unchanged. -/
theorem find_map_setStatus_other (db : OrdersDB) (order_id j : String)
    (s : Status) (hj : j ≠ order_id) :
    OrdersDB.find
      (db.map fun kv =>
        if kv.1 = order_id then (kv.1, { kv.2 with status := s }) else kv) j
      = OrdersDB.find db j := by
  induction db with
  | nil => rfl
  | cons kv rest ih =>
      rw [List.map_cons]
      by_cases h : kv.1 = order_id
      · have hne : kv.1 ≠ j := by rw [h]; exact fun e => hj e.symm
        rw [if_pos h, find_cons, if_neg hne, find_cons, if_neg hne]
        exact ih
      · rw [if_neg h]
        by_cases h2 : kv.1 = j
        · rw [find_cons, if_pos h2, find_cons, if_pos h2]
        · rw [find_cons, if_neg h2, find_cons, if_neg h2]
          exact ih

/-- `SizeEnum` coercion succeeds exactly on the three size strings. -/
theorem sizeOfString_isSome (s : String) :
    (SizeEnum.ofString s).isSome = true ↔ s ∈ ["small", "medium", "large"] := by
  unfold SizeEnum.ofString
  split_ifs <;> simp_all

/-- `CoffeeTypeEnum` coercion succeeds exactly on the two temperature
strings. -/
theorem coffeeTypeOfString_isSome (s : String) :
    (CoffeeTypeEnum.ofString s).isSome = true ↔ s ∈ ["iced", "hot"] := by
  unfold CoffeeTypeEnum.ofString
  split_ifs <;> simp_all

/-- `FlavorEnum` coercion succeeds exactly on the six flavor strings. -/
theorem flavorOfString_isSome (s : String) :
    (FlavorEnum.ofString s).isSome = true ↔
      s ∈ ["french vanilla", "hazelnut", "caramel", "mocha", "vanilla", "cinnamon"] := by
  unfold FlavorEnum.ofString
  split_ifs <;> simp_all

/-- `MilkTypeEnum` coercion succeeds exactly on the five milk strings. -/
theorem milkOfString_isSome (s : String) :
    (MilkTypeEnum.ofString s).isSome = true ↔
      s ∈ ["whole", "oat", "almond", "soy", "none"] := by
  unfold MilkTypeEnum.ofString
  split_ifs <;> simp_all

/-- Element-wise flavor coercion preserves the list length. -/
theorem parseFlavors_ok_length (l : List String) (fl : List FlavorEnum)
    (h : parseFlavors l = Except.ok fl) : fl.length = l.length := by
  induction l generalizing fl with
  | nil =>
      unfold parseFlavors at h
      injection h with h
      subst h
      rfl
  | cons f rest ih =>
      unfold parseFlavors at h
      cases hf : FlavorEnum.ofString f <;> rw [hf] at h
      · cases h
      · cases hr : parseFlavors rest <;> rw [hr] at h
        · cases h
        · injection h with h
          subst h
          simp [ih _ hr]

/-- Element-wise flavor coercion succeeds exactly when every element is one
of the six flavor strings. -/
theorem parseFlavors_ok_iff (l : List String) :
    (∃ fl, parseFlavors l = Except.ok fl) ↔
      ∀ f ∈ l,
        f ∈ ["french vanilla", "hazelnut", "caramel", "mocha", "vanilla", "cinnamon"] := by
  induction l with
  | nil =>
      constructor
      · intro _ f hf
        cases hf
      · intro _
        exact ⟨[], rfl⟩
  | cons f rest ih =>
      cases hf : FlavorEnum.ofString f with
      | none =>
          constructor
          · rintro ⟨fl, hok⟩
            unfold parseFlavors at hok
            rw [hf] at hok
            cases hok
          · intro hall
            exfalso
            have hs := (flavorOfString_isSome f).mpr (hall f (by simp))
            rw [hf] at hs
            cases hs
      | some fe =>
          constructor
          · rintro ⟨fl, hok⟩
            unfold parseFlavors at hok
            rw [hf] at hok
            cases hr : parseFlavors rest <;> rw [hr] at hok
            · cases hok
            · intro g hg
              rcases List.mem_cons.mp hg with hg | hg
              · subst hg
                exact (flavorOfString_isSome g).mp (by rw [hf]; rfl)
              · exact ih.mp ⟨_, hr⟩ g hg
          · intro hall
            rcases ih.mpr (fun g hg => hall g (List.mem_cons_of_mem _ hg)) with ⟨fl', hr⟩
            refine ⟨fe :: fl', ?_⟩
            unfold parseFlavors
            rw [hf, hr]

/-- Milk coercion succeeds exactly when the field, if present, is one of
the five milk strings. -/
theorem parseMilk_ok_iff (m : Option String) :
    (∃ mk, parseMilk m = Except.ok mk) ↔
      ∀ x ∈ m, x ∈ ["whole", "oat", "almond", "soy", "none"] := by
  cases m with
  | none =>
      constructor
      · intro _ x hx
        cases hx
      · intro _
        exact ⟨Option.none, rfl⟩
  | some s =>
      cases hs : MilkTypeEnum.ofString s with
      | none =>
          constructor
          · rintro ⟨mk, hok⟩
            simp only [parseMilk] at hok
            rw [hs] at hok
            cases hok
          · intro hall
            exfalso
            have h := (milkOfString_isSome s).mpr (hall s rfl)
            rw [hs] at h
            cases h
      | some mk =>
          constructor
          · intro _ x hx
            cases hx
            exact (milkOfString_isSome s).mp (by rw [hs]; rfl)
          · intro _
            refine ⟨some mk, ?_⟩
            simp only [parseMilk]
            rw [hs]

/-- The extra-shot bound check succeeds exactly on counts in [0,5]. -/
theorem checkExtraShot_ok_iff (es : Option Int) :
    checkExtraShot es = Except.ok () ↔ ∀ n ∈ es, 0 ≤ n ∧ n ≤ 5 := by
  cases es with
  | none =>
      simp [checkExtraShot]
  | some n =>
      simp only [checkExtraShot]
      split_ifs with h1 h2 <;> constructor <;> intro h
      · cases h
      · exact absurd ((h n rfl).1) (by omega)
      · cases h
      · exact absurd ((h n rfl).2) (by omega)
      · intro x hx
        cases hx
        omega
      · rfl

/-- The instruction-length check succeeds exactly on strings of at most 200
characters. -/
theorem checkInstructions_ok_iff (si : Option String) :
    checkInstructions si = Except.ok () ↔ ∀ s ∈ si, s.length ≤ 200 := by
  cases si with
  | none =>
      simp [checkInstructions]
  | some s =>
      simp only [checkInstructions]
      split_ifs with h1 <;> constructor <;> intro h
      · cases h
      · exact absurd (h s rfl) (by omega)
      · intro x hx
        cases hx
        omega
      · rfl

/-- Pydantic validation succeeds exactly on well-formed raw requests. -/
theorem parse_ok_iff (r : RawCoffeeOrder) :
    (∃ o, parse_coffee_order r = Except.ok o) ↔ r.WellFormed := by
  unfold parse_coffee_order RawCoffeeOrder.WellFormed
  cases hsz : SizeEnum.ofString r.size with
  | none =>
      simp only [hsz]
      constructor
      · rintro ⟨o, h⟩
        cases h
      · rintro ⟨h1, -⟩
        have hs := (sizeOfString_isSome r.size).mpr h1
        rw [hsz] at hs
        cases hs
  | some sz =>
  simp only [hsz]
  cases hct : CoffeeTypeEnum.ofString r.coffee_type with
  | none =>
      simp only [hct]
      constructor
      · rintro ⟨o, h⟩
        cases h
      · rintro ⟨-, h2, -⟩
        have hc := (coffeeTypeOfString_isSome r.coffee_type).mpr h2
        rw [hct] at hc
        cases hc
  | some ct =>
  simp only [hct]
  cases hfl : parseFlavors r.flavors with
  | error e =>
      simp only [hfl]
      constructor
      · rintro ⟨o, h⟩
        cases h
      · rintro ⟨-, -, h3, -⟩
        rcases (parseFlavors_ok_iff r.flavors).mpr h3 with ⟨fl, hfl2⟩
        rw [hfl] at hfl2
        cases hfl2
  | ok fl =>
  simp only [hfl]
  by_cases hlen : fl.length > 3
  · rw [if_pos hlen]
    constructor
    · rintro ⟨o, h⟩
      cases h
    · rintro ⟨-, -, -, h4, -⟩
      have hlen2 := parseFlavors_ok_length r.flavors fl hfl
      omega
  · rw [if_neg hlen]
    cases hmk : parseMilk r.milk with
    | error e =>
        simp only [hmk]
        constructor
        · rintro ⟨o, h⟩
          cases h
        · rintro ⟨-, -, -, -, h5, -⟩
          rcases (parseMilk_ok_iff r.milk).mpr h5 with ⟨mk, hmk2⟩
          rw [hmk] at hmk2
          cases hmk2
    | ok mk =>
    simp only [hmk]
    cases hes : checkExtraShot r.extra_shot with
    | error e =>
        simp only [hes]
        constructor
        · rintro ⟨o, h⟩
          cases h
        · rintro ⟨-, -, -, -, -, h6, -⟩
          have h := (checkExtraShot_ok_iff r.extra_shot).mpr h6
          rw [hes] at h
          cases h
    | ok u =>
    cases u
    simp only [hes]
    cases hsi : checkInstructions r.special_instructions with
    | error e =>
        simp only [hsi]
        constructor
        · rintro ⟨o, h⟩
          cases h
        · rintro ⟨-, -, -, -, -, -, h7⟩
          have h := (checkInstructions_ok_iff r.special_instructions).mpr h7
          rw [hsi] at h
          cases h
    | ok u2 =>
    cases u2
    simp only [hsi]
    constructor
    · rintro ⟨o, -⟩
      refine ⟨?_, ?_, ?_, ?_, ?_, ?_, ?_⟩
      · exact (sizeOfString_isSome r.size).mp (by rw [hsz]; rfl)
      · exact (coffeeTypeOfString_isSome r.coffee_type).mp (by rw [hct]; rfl)
      · exact (parseFlavors_ok_iff r.flavors).mp ⟨fl, hfl⟩
      · have := parseFlavors_ok_length r.flavors fl hfl
        omega
      · exact (parseMilk_ok_iff r.milk).mp ⟨mk, hmk⟩
      · exact (checkExtraShot_ok_iff r.extra_shot).mp hes
      · exact (checkInstructions_ok_iff r.special_instructions).mp hsi
    · intro _
      exact ⟨_, rfl⟩

/-! ### Claim theorems. -/

/-- C1: for every valid order request, `calculate_price` returns the size
base price (small 3.50, medium 4.25, large 4.95), plus 0.75 per extra shot
when present, plus 0.50 per flavor instance (duplicates included), plus a
flat 0.65 surcharge for oat/almond/soy milk, rounded to 2 decimal places;
in particular the large/hot/[hazelnut,caramel]/oat/2-shot request prices to
8.10. -/
theorem claim_C1_price_formula :
    (∀ o : CoffeeOrder, o.Valid → calculate_price o = price_spec o) ∧
    calculate_price order_c1 = 8.10 := by
  constructor
  · intro o _
    rw [calculate_price_eq_cents, price_spec_eq_cents]
  · rw [calculate_price_eq_cents]
    have h : price_cents order_c1 = 810 := by decide
    rw [h]
    norm_num

/-- Witness for C1 at the spec's §8 scenario-3 request. -/
theorem claim_C1_price_formula_witness :
    CoffeeOrder.Valid order_c1 ∧ calculate_price order_c1 = price_spec order_c1 :=
  ⟨by decide, claim_C1_price_formula.1 order_c1 (by decide)⟩

/-- C2: for every valid order request, `calculate_prep_time` equals the
spec §4.3 accumulator (start 3.0; +1.0 if iced; +0.5 per extra shot when
present; +1.0 if more than one flavor) truncated toward zero and clamped
to a minimum of 2, so the result is an integer ≥ 2. -/
theorem claim_C2_prep_time_formula (o : CoffeeOrder) (_hv : o.Valid) :
    calculate_prep_time o = max 2 (truncTowardZero (prep_accumulator_spec o)) ∧
    2 ≤ calculate_prep_time o := by
  refine ⟨calculate_prep_time_eq_spec o, ?_⟩
  rw [calculate_prep_time_eq_spec]
  exact le_max_left _ _

/-- Witness for C2 at the spec's §8 scenario-3 request. -/
theorem claim_C2_prep_time_formula_witness :
    CoffeeOrder.Valid order_c1 ∧
    (calculate_prep_time order_c1
        = max 2 (truncTowardZero (prep_accumulator_spec order_c1)) ∧
     2 ≤ calculate_prep_time order_c1) :=
  ⟨by decide, claim_C2_prep_time_formula order_c1 (by decide)⟩

/-- C7: for every valid order request, the price is at least the base
price of the requested size and is an integer multiple of 0.01. -/
theorem claim_C7_price_bounds (o : CoffeeOrder) (hv : o.Valid) :
    base_prices o.size ≤ calculate_price o ∧
    ∃ n : ℤ, calculate_price o = (n : ℚ) / 100 := by
  refine ⟨?_, ⟨price_cents o, calculate_price_eq_cents o⟩⟩
  rw [calculate_price_eq_cents]
  have hbase : base_prices o.size = (base_cents o.size : ℚ) / 100 := by
    cases h : o.size <;> norm_num [base_prices, base_cents]
  rw [hbase]
  have hz : base_cents o.size ≤ price_cents o := by
    unfold price_cents
    have h1 : (0 : ℤ) ≤ match o.extra_shot with
        | some n => n * 75
        | Option.none => 0 := by
      cases he : o.extra_shot with
      | none => show (0 : ℤ) ≤ 0; omega
      | some n =>
          have hn : (0 : ℤ) ≤ n := (hv.1 n (by rw [he]; rfl)).1
          show (0 : ℤ) ≤ n * 75
          omega
    have h2 : (0 : ℤ) ≤ (o.flavors.length : ℤ) * 50 := by positivity
    have h3 : (0 : ℤ) ≤ if isPremiumMilk o.milk then (65 : ℤ) else 0 := by
      split_ifs <;> norm_num
    linarith
  have hq : (base_cents o.size : ℚ) ≤ (price_cents o : ℚ) := by exact_mod_cast hz
  linarith

/-- Witness for C7 at the spec's §8 scenario-3 request. -/
theorem claim_C7_price_bounds_witness :
    base_prices order_c1.size ≤ calculate_price order_c1 ∧
    ∃ n : ℤ, calculate_price order_c1 = (n : ℚ) / 100 :=
  claim_C7_price_bounds order_c1 (by decide)

/-- C8: two valid requests identical in every field except the drink
temperature (one hot, one iced) price identically. -/
theorem claim_C8_price_temperature_blind (o1 o2 : CoffeeOrder)
    (_hv1 : o1.Valid) (_hv2 : o2.Valid)
    (_h1 : o1.coffee_type = CoffeeTypeEnum.hot)
    (_h2 : o2.coffee_type = CoffeeTypeEnum.iced)
    (hs : o1.size = o2.size) (hf : o1.flavors = o2.flavors)
    (hm : o1.milk = o2.milk) (he : o1.extra_shot = o2.extra_shot)
    (_hsi : o1.special_instructions = o2.special_instructions) :
    calculate_price o1 = calculate_price o2 := by
  unfold calculate_price
  rw [hs, hf, hm, he]

/-- Witness for C8 at a small hot / small iced pair. -/
theorem claim_C8_price_temperature_blind_witness :
    calculate_price order_small = calculate_price order_small_iced :=
  claim_C8_price_temperature_blind order_small order_small_iced
    (by decide) (by decide) rfl rfl rfl rfl rfl rfl rfl

/-- C10: for every valid order request the prep time is at least 3 — the
accumulator starts at 3.0 and every contribution is non-negative — so the
clamp to a minimum of 2 never binds. -/
theorem claim_C10_prep_time_min_three (o : CoffeeOrder) (hv : o.Valid) :
    3 ≤ calculate_prep_time o ∧
    calculate_prep_time o = truncTowardZero (prep_accumulator_spec o) := by
  have h0 : ∀ n ∈ o.extra_shot, 0 ≤ n := fun n hn => (hv.1 n hn).1
  have h3 := prep_floor_ge o h0
  rw [calculate_prep_time_eq_spec]
  constructor
  · exact le_trans h3 (le_max_right _ _)
  · exact max_eq_right (by omega)

/-- Witness for C10 at the spec's §8 scenario-3 request. -/
theorem claim_C10_prep_time_min_three_witness :
    3 ≤ calculate_prep_time order_c1 ∧
    calculate_prep_time order_c1 = truncTowardZero (prep_accumulator_spec order_c1) :=
  claim_C10_prep_time_min_three order_c1 (by decide)

/-- C3: `cancel_order` fails with NotFound when the identifier is absent;
fails with the Conflict signal, leaving the store unchanged, when the
stored status is ready or completed; otherwise removes the record, so a
subsequent `get_order` fails with NotFound. -/
theorem claim_C3_cancel_semantics (db : OrdersDB) (order_id : String) :
    (OrdersDB.find db order_id = Option.none →
      cancel_order db order_id = (Except.error (notFoundError order_id), db)) ∧
    (∀ o, OrdersDB.find db order_id = some o →
      o.status ∈ [Status.ready, Status.completed] →
      cancel_order db order_id = (Except.error cancelConflictError, db)) ∧
    (∀ o, OrdersDB.find db order_id = some o →
      o.status ∉ [Status.ready, Status.completed] →
      OrdersDB.find (cancel_order db order_id).2 order_id = Option.none ∧
      get_order (cancel_order db order_id).2 order_id
        = Except.error (notFoundError order_id)) := by
  refine ⟨?_, ?_, ?_⟩
  · intro h
    simp only [cancel_order, h]
  · intro o ho hst
    simp only [cancel_order, ho]
    rw [if_pos hst]
  · intro o ho hst
    simp only [cancel_order, ho]
    rw [if_neg hst]
    refine ⟨find_filter_ne db order_id, ?_⟩
    simp only [get_order, find_filter_ne]

/-- Witness for C3: absent id, terminal-status id, cancellable id. -/
theorem claim_C3_cancel_semantics_witness :
    cancel_order db_ex "zzz" = (Except.error (notFoundError "zzz"), db_ex) ∧
    cancel_order db_ex "id2" = (Except.error cancelConflictError, db_ex) ∧
    (OrdersDB.find (cancel_order db_ex "id1").2 "id1" = Option.none ∧
     get_order (cancel_order db_ex "id1").2 "id1"
       = Except.error (notFoundError "id1")) :=
  ⟨(claim_C3_cancel_semantics db_ex "zzz").1 rfl,
   (claim_C3_cancel_semantics db_ex "id2").2.1 resp_ready rfl (by decide),
   (claim_C3_cancel_semantics db_ex "id1").2.2 resp_received rfl (by decide)⟩

/-- C4: `update_order_status` fails with NotFound when the identifier is
absent; otherwise it overwrites the stored status with any new status and
returns an estimated-ready instant of now plus the stored prep time
exactly when the new status is preparing, absent otherwise. -/
theorem claim_C4_update_status_semantics (db : OrdersDB) (order_id : String)
    (s : Status) (now : ℤ) :
    (OrdersDB.find db order_id = Option.none →
      update_order_status db order_id s now
        = (Except.error (notFoundError order_id), db)) ∧
    (∀ o, OrdersDB.find db order_id = some o →
      (update_order_status db order_id s now).1
          = Except.ok ⟨order_id, s,
              if s = Status.preparing then some (now + o.estimated_prep_time)
              else Option.none⟩ ∧
      OrdersDB.find (update_order_status db order_id s now).2 order_id
          = some { o with status := s }) := by
  refine ⟨?_, ?_⟩
  · intro h
    simp only [update_order_status, h]
  · intro o ho
    refine ⟨?_, ?_⟩
    · simp only [update_order_status, ho]
    · simp only [update_order_status, ho]
      rw [find_map_setStatus, ho, Option.map_some']

/-- Witness for C4: absent id; present id updated to preparing and to
completed. -/
theorem claim_C4_update_status_semantics_witness :
    update_order_status db_ex "zzz" Status.preparing 0
        = (Except.error (notFoundError "zzz"), db_ex) ∧
    (update_order_status db_ex "id1" Status.preparing 5).1
        = Except.ok ⟨"id1", Status.preparing,
            if Status.preparing = Status.preparing
            then some (5 + resp_received.estimated_prep_time)
            else Option.none⟩ ∧
    OrdersDB.find (update_order_status db_ex "id1" Status.preparing 5).2 "id1"
        = some { resp_received with status := Status.preparing } :=
  ⟨(claim_C4_update_status_semantics db_ex "zzz" Status.preparing 0).1 rfl,
   ((claim_C4_update_status_semantics db_ex "id1" Status.preparing 5).2
      resp_received rfl).1,
   ((claim_C4_update_status_semantics db_ex "id1" Status.preparing 5).2
      resp_received rfl).2⟩

/-- C6: creating an order and then fetching by the returned identifier
yields the very record returned at creation: the request fields copied
unchanged, status received, and identifier, price, prep time and creation
timestamp exactly as computed at creation. -/
theorem claim_C6_create_get_round_trip (db : OrdersDB) (o : CoffeeOrder)
    (_hv : o.Valid) (order_id : String) (now : ℤ) :
    get_order (create_coffee_order db o order_id now).2 order_id
        = Except.ok (create_coffee_order db o order_id now).1 ∧
    (create_coffee_order db o order_id now).1.order_id = order_id ∧
    (create_coffee_order db o order_id now).1.size = o.size ∧
    (create_coffee_order db o order_id now).1.coffee_type = o.coffee_type ∧
    (create_coffee_order db o order_id now).1.flavors = o.flavors ∧
    (create_coffee_order db o order_id now).1.milk = o.milk ∧
    (create_coffee_order db o order_id now).1.extra_shot = o.extra_shot ∧
    (create_coffee_order db o order_id now).1.special_instructions
        = o.special_instructions ∧
    (create_coffee_order db o order_id now).1.status = Status.received ∧
    (create_coffee_order db o order_id now).1.estimated_price
        = calculate_price o ∧
    (create_coffee_order db o order_id now).1.estimated_prep_time
        = calculate_prep_time o ∧
    (create_coffee_order db o order_id now).1.order_time = now := by
  refine ⟨?_, rfl, rfl, rfl, rfl, rfl, rfl, rfl, rfl, rfl, rfl, rfl⟩
  simp only [create_coffee_order, get_order, find_cons, if_pos]

/-- Witness for C6 on an empty store. -/
theorem claim_C6_create_get_round_trip_witness :
    CoffeeOrder.Valid order_c1 ∧
    get_order (create_coffee_order [] order_c1 "id7" 42).2 "id7"
        = Except.ok (create_coffee_order [] order_c1 "id7" 42).1 ∧
    (create_coffee_order [] order_c1 "id7" 42).1.status = Status.received :=
  ⟨by decide,
   (claim_C6_create_get_round_trip [] order_c1 (by decide) "id7" 42).1,
   (claim_C6_create_get_round_trip [] order_c1 (by decide) "id7" 42).2.2.2.2.2.2.2.2.1⟩

/-- C9: an accepted status update changes only the status field of the
addressed record — every other field of that record and every other record
in the store are unchanged. -/
theorem claim_C9_update_status_frame (db : OrdersDB) (order_id : String)
    (s : Status) (now : ℤ) (o : CoffeeOrderResponse)
    (ho : OrdersDB.find db order_id = some o) :
    (∃ r, OrdersDB.find (update_order_status db order_id s now).2 order_id
          = some r ∧
      r.order_id = o.order_id ∧ r.size = o.size ∧
      r.coffee_type = o.coffee_type ∧ r.flavors = o.flavors ∧
      r.milk = o.milk ∧ r.extra_shot = o.extra_shot ∧
      r.special_instructions = o.special_instructions ∧
      r.estimated_price = o.estimated_price ∧
      r.estimated_prep_time = o.estimated_prep_time ∧
      r.order_time = o.order_time ∧ r.status = s) ∧
    (∀ j, j ≠ order_id →
      OrdersDB.find (update_order_status db order_id s now).2 j
        = OrdersDB.find db j) := by
  constructor
  · refine ⟨{ o with status := s }, ?_, rfl, rfl, rfl, rfl, rfl, rfl, rfl,
      rfl, rfl, rfl, rfl⟩
    simp only [update_order_status, ho]
    rw [find_map_setStatus, ho, Option.map_some']
  · intro j hj
    simp only [update_order_status, ho]
    exact find_map_setStatus_other db order_id j s hj

/-- Witness for C9: updating id1 leaves id2's lookup unchanged. -/
theorem claim_C9_update_status_frame_witness :
    OrdersDB.find db_ex "id1" = some resp_received ∧
    OrdersDB.find (update_order_status db_ex "id1" Status.completed 0).2 "id2"
        = OrdersDB.find db_ex "id2" :=
  ⟨rfl,
   (claim_C9_update_status_frame db_ex "id1" Status.completed 0 resp_received
      rfl).2 "id2" (by decide)⟩

/-- C5: pydantic validation fails exactly on malformed requests — an
out-of-set flavor, more than 3 flavors, an extra-shot count outside [0,5],
instructions longer than 200 characters, or an out-of-set size,
temperature or milk value — and every well-formed request is created and
stored with status received. -/
theorem claim_C5_create_validation (r : RawCoffeeOrder) :
    ((∃ o, parse_coffee_order r = Except.ok o) ↔ r.WellFormed) ∧
    (∀ o db order_id now, parse_coffee_order r = Except.ok o →
      OrdersDB.find (create_coffee_order db o order_id now).2 order_id
          = some (create_coffee_order db o order_id now).1 ∧
      (create_coffee_order db o order_id now).1.status = Status.received) := by
  refine ⟨parse_ok_iff r, ?_⟩
  intro o db order_id now _
  refine ⟨?_, rfl⟩
  simp only [create_coffee_order, find_cons, if_pos]

/-- Witness for C5 at a concrete well-formed raw request. -/
theorem claim_C5_create_validation_witness :
    parse_coffee_order raw_ok = Except.ok order_c1 ∧
    OrdersDB.find (create_coffee_order [] order_c1 "id9" 0).2 "id9"
        = some (create_coffee_order [] order_c1 "id9" 0).1 ∧
    (create_coffee_order [] order_c1 "id9" 0).1.status = Status.received :=
  ⟨rfl,
   (claim_C5_create_validation raw_ok).2 order_c1 [] "id9" 0 rfl⟩

end CoffeeShop

